import Mathlib

/-!
Verification of the neuro-assessment session engine against its
natural-language specification.

The development shallow-embeds the engine's pure computations and the
per-frame state transitions of the two tests:

* `src/src/utils/testCalculations.ts` (shared with `src/unnamed/part_001`):
  `calculateGazePosition`, `calculateFingerTapDistance`, `analyzeTapData`;
* the eye-tracking component (`src/src/components/tests/EyeTrackingTest.tsx`
  and its draft `src/unnamed/part_003`): the sampling step of
  `predictWebcam`, `handleStartTest`, `handleStopTest`, `animateTarget`;
* the finger-tap component (`src/src/components/tests/FingerTapTest.tsx`,
  proximity strategy) and its movement-strategy draft
  (`src/unnamed/part_008`): the tap-detection step of `predictWebcam`.

JavaScript numbers are embedded as exact real numbers; all arithmetic the
code performs on finite values is exact real arithmetic.  The single place
where the code can divide by zero (`totalTaps / duration` in
`analyzeTapData`) is embedded with IEEE-754 semantics through the `JSNum`
type, so that the Infinity the code actually produces there is visible.
`toFixed(2)` followed by `parseFloat` is embedded as rounding to the
nearest multiple of 1/100 (ties toward +infinity, as `toFixed` specifies).
-/

noncomputable section

/-- A normalized 2-D landmark / screen point (the `{x, y}` objects of the
code; the optional `z` coordinate is never read by the engine). -/
@[ext]
structure Point where
  x : ℝ
  y : ℝ

/-- `Math.hypot(a, b)` on finite doubles: the Euclidean norm `√(a² + b²)`. -/
def jsHypot (a b : ℝ) : ℝ := Real.sqrt (a ^ 2 + b ^ 2)

/-- `parseFloat(v.toFixed(2))` on a finite double: round to the nearest
multiple of `1/100`, ties toward `+∞` (ECMAScript `toFixed` picks the
larger candidate on ties, which is `⌊x·100 + 1/2⌋ / 100`). -/
def round2 (v : ℝ) : ℝ := (⌊v * 100 + 1 / 2⌋ : ℤ) / 100

/-- A JavaScript number as produced by an arithmetic operation: either a
finite value (embedded exactly), a signed infinity, or NaN. -/
inductive JSNum where
  | num : ℝ → JSNum
  | posInf : JSNum
  | negInf : JSNum
  | nan : JSNum

/-- IEEE-754 division of two finite doubles, as JavaScript performs it:
finite quotient when the divisor is nonzero, a signed infinity (or NaN for
`0/0`) when the divisor is zero. -/
def jsDiv (a b : ℝ) : JSNum :=
  if b = 0 then
    if 0 < a then JSNum.posInf else if a < 0 then JSNum.negInf else JSNum.nan
  else JSNum.num (a / b)

/-- `parseFloat(v.toFixed(2))` lifted to `JSNum`: `toFixed` prints
`"Infinity"`/`"NaN"` for non-finite values and `parseFloat` reads them
back, so non-finite values pass through unchanged. -/
def JSNum.toFixed2 : JSNum → JSNum
  | JSNum.num v => JSNum.num (round2 v)
  | JSNum.posInf => JSNum.posInf
  | JSNum.negInf => JSNum.negInf
  | JSNum.nan => JSNum.nan

/-! ## `testCalculations.ts`: gaze estimator -/

/-- `LEFT_IRIS_INDICES` of `testCalculations.ts` (`src/unnamed/part_001`). -/
def LEFT_IRIS_INDICES : List ℕ := [473, 474, 475, 476, 477]

/-- `RIGHT_IRIS_INDICES` of `testCalculations.ts` (`src/unnamed/part_001`). -/
def RIGHT_IRIS_INDICES : List ℕ := [468, 469, 470, 471, 472]

/-- The result object of `calculateGazePosition`. -/
structure GazeEstimate where
  left : Option Point
  right : Option Point
  average : Option Point

/-- `getCenterPoint` (inner function of `calculateGazePosition`):
`indices.map(i => landmarks[i])`, `null` if any mapped entry is absent
(`points.some(p => !p)`), otherwise the arithmetic mean of the points'
coordinates.  The map-then-check-for-undefined of the source is embedded
as the `Option`-monadic traversal `mapM`. -/
def getCenterPoint (landmarks : List Point) (indices : List ℕ) : Option Point :=
  match indices.mapM (fun i => landmarks.get? i) with
  | none => none
  | some points =>
    let sumX := points.foldl (fun acc curr => acc + curr.x) 0
    let sumY := points.foldl (fun acc curr => acc + curr.y) 0
    some ⟨sumX / indices.length, sumY / indices.length⟩

/-- `calculateGazePosition` of `testCalculations.ts`. -/
def calculateGazePosition (landmarks : List Point) : GazeEstimate :=
  let leftIrisCenter := getCenterPoint landmarks LEFT_IRIS_INDICES
  let rightIrisCenter := getCenterPoint landmarks RIGHT_IRIS_INDICES
  let averageGaze : Option Point :=
    match leftIrisCenter, rightIrisCenter with
    | some l, some r => some ⟨(l.x + r.x) / 2, (l.y + r.y) / 2⟩
    | _, _ => none
  ⟨leftIrisCenter, rightIrisCenter, averageGaze⟩

/-- `calculateFingerTapDistance` of `testCalculations.ts`: `null` when the
hand has fewer than 9 landmarks, otherwise `Math.hypot` of the coordinate
differences of the thumb tip (index 4) and index tip (index 8). -/
def calculateFingerTapDistance (landmarks : List Point) : Option ℝ :=
  if h : landmarks.length < 9 then none
  else
    let thumbTip := landmarks.get ⟨4, by omega⟩
    let indexTip := landmarks.get ⟨8, by omega⟩
    some (jsHypot (thumbTip.x - indexTip.x) (thumbTip.y - indexTip.y))

/-! ## `testCalculations.ts`: tap statistics -/

/-- The result object of `analyzeTapData`.  `tapsPerSecond` is the one
field whose computation can divide by zero, so it carries a `JSNum`; the
interval statistics always divide by the positive interval count and stay
finite. -/
structure TapResults where
  totalTaps : ℕ
  tapsPerSecond : JSNum
  averageTimeBetweenTaps : ℝ
  consistency : ℝ

/-- The consecutive inter-tap intervals: the `for (let i = 1; ...)` loop of
`analyzeTapData` pushes `timestamps[i] - timestamps[i-1]`, i.e. the
elementwise difference of the tail against the list. -/
def tapIntervals (timestamps : List ℝ) : List ℝ :=
  List.zipWith (fun a b => a - b) (timestamps.drop 1) timestamps

/-- `analyzeTapData` of `testCalculations.ts`. -/
def analyzeTapData (timestamps : List ℝ) : TapResults :=
  if h : timestamps.length < 2 then
    ⟨timestamps.length, JSNum.num 0, 0, 0⟩
  else
    let totalTaps := timestamps.length
    let duration :=
      (timestamps.get ⟨totalTaps - 1, by omega⟩ - timestamps.get ⟨0, by omega⟩) / 1000
    let tapsPerSecond := jsDiv totalTaps duration
    let intervals := tapIntervals timestamps
    let averageTimeBetweenTaps :=
      intervals.foldl (fun sum interval => sum + interval) (0 : ℝ) / (intervals.length : ℝ)
    let mean := averageTimeBetweenTaps
    let squaredDifferences := intervals.map (fun interval => (interval - mean) ^ 2)
    let avgSquaredDiff :=
      squaredDifferences.foldl (fun sum v => sum + v) (0 : ℝ) / (intervals.length : ℝ)
    let consistency := Real.sqrt avgSquaredDiff
    ⟨totalTaps, tapsPerSecond.toFixed2, round2 averageTimeBetweenTaps,
      round2 consistency⟩

/-! ## Spec-side statistics definitions (from the specification's words) -/

/-- Spec: the arithmetic mean of a list of values. -/
def specMean (l : List ℝ) : ℝ := l.sum / l.length

/-- Spec: the population standard deviation of a list of values (dividing
the summed squared deviations by the number of values). -/
def specPopStdDev (l : List ℝ) : ℝ :=
  Real.sqrt ((l.map (fun v => (v - specMean l) ^ 2)).sum / l.length)

/-! ## Eye-tracking test (`EyeTrackingTest.tsx`, draft `src/unnamed/part_003`) -/

namespace EyeTracking

/-- A `GazeDataPoint` of `EyeTrackingTest.tsx`. -/
structure GazeDataPoint where
  timestamp : ℝ
  target : Point
  gaze : Option Point

/-- A `GazeTestResults` of `EyeTrackingTest.tsx`. -/
structure GazeTestResults where
  trackingScore : ℝ
  pointsCollected : ℕ

/-- One invocation of the sampling part of `predictWebcam` while the
detector has produced `faceLandmarks` for the frame: when at least one
face is present and its gaze `average` is computable, and the test is
running, a sample with that (non-null) gaze is appended; on every other
path the history is left untouched. -/
structure EyeFrame where
  faceLandmarks : List (List Point)
  now : ℝ
  target : Point

/-- The history-accumulation step of `predictWebcam`
(`EyeTrackingTest.tsx` lines 43–54 / `part_003` lines 53–65). -/
def predictStep (isTestRunning : Bool) (history : List GazeDataPoint)
    (f : EyeFrame) : List GazeDataPoint :=
  match f.faceLandmarks.head? with
  | none => history
  | some lms =>
    let gaze := calculateGazePosition lms
    match gaze.average with
    | none => history
    | some avg =>
      if isTestRunning then history ++ [⟨f.now, f.target, some avg⟩]
      else history

/-- `handleStopTest`'s score aggregation (`src/unnamed/part_003` lines
71–104, the draft that implements the zero-sample branch; scale constant
`K = 150`): accumulate the Euclidean target–gaze distance over the
samples with non-null gaze, divide by their count when positive, and map
through `max(0, 100 − averageError·150)` rounded to two decimals; an
empty history reports `trackingScore = 0`, `pointsCollected = 0`. -/
def handleStopTest (gazeHistory : List GazeDataPoint) : GazeTestResults :=
  if gazeHistory.length > 0 then
    let acc := gazeHistory.foldl
      (fun (acc : ℝ × ℕ) point =>
        match point.gaze with
        | some g =>
          (acc.1 + jsHypot (point.target.x - g.x) (point.target.y - g.y), acc.2 + 1)
        | none => acc)
      ((0 : ℝ), (0 : ℕ))
    let totalDistance := acc.1
    let validPoints := acc.2
    let averageError := if validPoints > 0 then totalDistance / (validPoints : ℝ) else 0
    let trackingScore := max 0 (100 - averageError * 150)
    ⟨round2 trackingScore, validPoints⟩
  else ⟨0, 0⟩

/-- The session state of `EyeTrackingTest.tsx` that `handleStartTest`
touches. -/
structure EyeSession where
  isTestRunning : Bool
  gazeHistory : List GazeDataPoint
  testResults : Option GazeTestResults

/-- `handleStartTest` (`EyeTrackingTest.tsx` lines 75–79): unconditionally
clears the history and results and sets the running flag, with no guard
on the current state. -/
def handleStartTest (_s : EyeSession) : EyeSession :=
  { isTestRunning := true, gazeHistory := [], testResults := none }

/-- `animateTarget`'s position at performance-clock time `nowMs`
(milliseconds): `time = performance.now() / 3000`, `x = 0.5 + 0.4·cos time`,
`y = 0.5 + 0.4·sin time` (`EyeTrackingTest.tsx` lines 97–108). -/
def animateTarget (nowMs : ℝ) : Point :=
  ⟨0.5 + 0.4 * Real.cos (nowMs / 3000), 0.5 + 0.4 * Real.sin (nowMs / 3000)⟩

/-- Spec-side: the samples of a history that carry a non-null gaze. -/
def specValidCount (h : List GazeDataPoint) : ℕ :=
  (h.filter (fun s => s.gaze.isSome)).length

/-- Spec-side: the summed Euclidean target–gaze distance over the samples
with non-null gaze. -/
def specTotalDistance (h : List GazeDataPoint) : ℝ :=
  (h.filterMap (fun s =>
    s.gaze.map (fun g => jsHypot (s.target.x - g.x) (s.target.y - g.y)))).sum

end EyeTracking

/-! ## Finger-tap test, proximity strategy (`FingerTapTest.tsx`) -/

namespace FingerTap

/-- `TAP_THRESHOLD` of `FingerTapTest.tsx`. -/
def TAP_THRESHOLD : ℝ := 0.05

/-- The detector state the proximity strategy carries across frames. -/
structure TapState where
  wasTapped : Bool
  tapTimestamps : List ℝ

/-- One frame's detector output and clock reading. -/
structure HandFrame where
  landmarks : List (List Point)
  now : ℝ

/-- The tap-detection step of `predictWebcam` (`FingerTapTest.tsx`):
while the test is running and a hand is detected, compute the
thumb–index distance; below the threshold a tap is appended only when
`wasTapped` was false (which is then set), above the threshold
`wasTapped` is cleared; a null distance or absent hand changes nothing. -/
def predictStep (isTestRunning : Bool) (s : TapState) (f : HandFrame) : TapState :=
  match isTestRunning, f.landmarks.head? with
  | true, some hand =>
    match calculateFingerTapDistance hand with
    | none => s
    | some distance =>
      if distance < TAP_THRESHOLD then
        if !s.wasTapped then ⟨true, s.tapTimestamps ++ [f.now]⟩ else s
      else ⟨false, s.tapTimestamps⟩
  | _, _ => s

end FingerTap

/-! ## Finger-tap test, movement strategy (`src/unnamed/part_008`) -/

namespace MovementTap

/-- `MOVEMENT_THRESHOLD_PIXELS` of `part_008`. -/
def MOVEMENT_THRESHOLD_PIXELS : ℝ := 10

/-- `DEBOUNCE_TIME_MS` of `part_008`. -/
def DEBOUNCE_TIME_MS : ℝ := 200

/-- `VIDEO_HEIGHT` of `part_008` (the canvas height the normalized tip
coordinate is scaled by). -/
def VIDEO_HEIGHT : ℝ := 480

/-- The refs the movement strategy carries across frames
(`lastFingerTipY`, `lastTapTime`) together with the accumulated
`tapTimestamps`. -/
structure MoveState where
  lastFingerTipY : Option ℝ
  lastTapTime : ℝ
  tapTimestamps : List ℝ

/-- One frame's detector output and `Date.now()` reading. -/
structure MoveFrame where
  landmarks : List (List Point)
  now : ℝ

/-- The tap-detection step of `predictWebcam` (`part_008` lines 62–82):
while running with a hand and an index-tip landmark present, scale the
tip's y to pixels; if a previous tip position exists and the absolute
displacement exceeds the pixel threshold and the debounce interval has
elapsed since the last registered tap, append a tap and remember its
time; in every case remember the tip position.  When not running, the
remembered tip position is cleared. -/
def predictStep (isTestRunning : Bool) (s : MoveState) (f : MoveFrame) : MoveState :=
  if isTestRunning then
    match f.landmarks.head? with
    | some handLandmarks =>
      match handLandmarks.get? 8 with
      | some indexTip =>
        let tipY := indexTip.y * VIDEO_HEIGHT
        let s1 :=
          match s.lastFingerTipY with
          | some lastY =>
            let movement := |tipY - lastY|
            if movement > MOVEMENT_THRESHOLD_PIXELS then
              if f.now - s.lastTapTime > DEBOUNCE_TIME_MS then
                { s with tapTimestamps := s.tapTimestamps ++ [f.now],
                         lastTapTime := f.now }
              else s
            else s
          | none => s
        { s1 with lastFingerTipY := some tipY }
      | none => s
    | none => s
  else { s with lastFingerTipY := none }

/-- A hand landmark list whose index-tip (index 8) has normalized y
coordinate `y`; used to drive the movement detector on concrete frames. -/
def handWithTipY (y : ℝ) : List Point :=
  [⟨0, 0⟩, ⟨0, 0⟩, ⟨0, 0⟩, ⟨0, 0⟩, ⟨0, 0⟩, ⟨0, 0⟩, ⟨0, 0⟩, ⟨0, 0⟩, ⟨0, y⟩]

end MovementTap

/-- A nine-landmark hand whose thumb tip and index tip coincide (their
proximity distance is 0, below the tap threshold); a concrete input for
the proximity detector. -/
def FingerTap.closedHand : List Point :=
  [⟨0, 0⟩, ⟨0, 0⟩, ⟨0, 0⟩, ⟨0, 0⟩, ⟨0, 0⟩, ⟨0, 0⟩, ⟨0, 0⟩, ⟨0, 0⟩, ⟨0, 0⟩]

/-- A nine-landmark hand whose thumb tip is at `(0,0)` and index tip at
`(1,0)` (their proximity distance is 1, above the tap threshold); a
concrete input for the proximity detector. -/
def FingerTap.openHand : List Point :=
  [⟨0, 0⟩, ⟨0, 0⟩, ⟨0, 0⟩, ⟨0, 0⟩, ⟨0, 0⟩, ⟨0, 0⟩, ⟨0, 0⟩, ⟨0, 0⟩, ⟨1, 0⟩]

/-- Spec-side iris center (from the specification's words): for an eye's
index group, if any required index is absent from the landmark list the
center is `null`; otherwise it is the arithmetic mean of the x and y
coordinates of the group's points. -/
def specIrisCenter (landmarks : List Point) (indices : List ℕ) : Option Point :=
  match indices.mapM (fun i => landmarks.get? i) with
  | none => none
  | some pts =>
    some ⟨(pts.map Point.x).sum / indices.length, (pts.map Point.y).sum / indices.length⟩

/-! ## Theorems -/

/-- Folding addition of `f` over a list starting from `a` is `a` plus the
sum of the mapped list (the `reduce((acc, curr) => acc + f(curr), 0)`
pattern of the source). -/
theorem foldlAdd_map {α : Type} (f : α → ℝ) (l : List α) (a : ℝ) :
    l.foldl (fun acc curr => acc + f curr) a = a + (l.map f).sum := by
  induction l generalizing a with
  | nil => simp
  | cons x xs ih => simp [List.foldl_cons, ih, add_assoc]

/-- Folding addition over a list of reals starting from `a` is `a` plus
the list's sum. -/
theorem foldlAdd (l : List ℝ) (a : ℝ) :
    l.foldl (fun sum v => sum + v) a = a + l.sum := by
  induction l generalizing a with
  | nil => simp
  | cons x xs ih => simp [List.foldl_cons, ih, add_assoc]

/-- The `Option`-monadic traversal of `landmarks.get?` over an index list
returns `none` exactly when some required index is absent. -/
theorem mapM_get?_eq_none (landmarks : List Point) (indices : List ℕ) :
    indices.mapM (fun i => landmarks.get? i) = none ↔
      ∃ i ∈ indices, landmarks.length ≤ i := by
  induction indices with
  | nil => rw [List.mapM_nil]; simp
  | cons j js ih =>
    rw [List.mapM_cons]
    rcases h : landmarks.get? j with _ | p
    · have hj := List.get?_eq_none.mp h
      constructor
      · exact fun _ => ⟨j, List.mem_cons_self j js, hj⟩
      · exact fun _ => rfl
    · have hj : ¬ landmarks.length ≤ j := by
        intro hle
        rw [List.get?_eq_none.mpr hle] at h
        exact Option.noConfusion h
      constructor
      · intro hb
        rcases hmm : js.mapM (fun i => landmarks.get? i) with _ | pts
        · rcases ih.mp hmm with ⟨i, hi, hli⟩
          exact ⟨i, List.mem_cons_of_mem _ hi, hli⟩
        · rw [hmm] at hb
          simp at hb
      · rintro ⟨i, hi, hli⟩
        rcases List.mem_cons.mp hi with rfl | hi2
        · exact absurd hli hj
        · rw [ih.mpr ⟨i, hi2, hli⟩]
          rfl

/-- `getCenterPoint` refines the spec-side iris center. -/
theorem getCenterPoint_eq_spec (landmarks : List Point) (indices : List ℕ) :
    getCenterPoint landmarks indices = specIrisCenter landmarks indices := by
  rw [getCenterPoint, specIrisCenter]
  rcases h : indices.mapM (fun i => landmarks.get? i) with _ | pts
  · rfl
  · simp only [foldlAdd_map Point.x pts 0, foldlAdd_map Point.y pts 0, zero_add]

/-- **C3**: the claim says that for every timestamp sequence of length ≥ 2
whose first and last timestamps are equal, `analyzeTapData` reports
`tapsPerSecond` as 0, never Infinity or NaN.  The code has no guard on
`duration == 0`: on `[5, 5]` it computes `2 / 0`, which in JavaScript is
`Infinity`, and `parseFloat(Infinity.toFixed(2))` is again `Infinity` —
the code reports Infinity where the specification guarantees 0. -/
theorem C3_zero_duration_reports_infinity :
    (analyzeTapData [5, 5]).tapsPerSecond = JSNum.posInf ∧
    JSNum.posInf ≠ JSNum.num 0 := by
  constructor
  · simp [analyzeTapData, tapIntervals, jsDiv, JSNum.toFixed2]
  · simp

/-- **C6**: in the movement tap strategy, fingertip pixel-Y values
100, 100, 100 across three frames emit zero taps, and 100, 100, 150
(displacement 50 > threshold 10) emit exactly one tap. -/
theorem C6_movement_detector_edge_triggered :
    ((([⟨[MovementTap.handWithTipY (100 / 480)], 1000⟩,
        ⟨[MovementTap.handWithTipY (100 / 480)], 1100⟩,
        ⟨[MovementTap.handWithTipY (100 / 480)], 1200⟩] : List MovementTap.MoveFrame).foldl
        (MovementTap.predictStep true) ⟨none, 0, []⟩).tapTimestamps = []) ∧
    ((([⟨[MovementTap.handWithTipY (100 / 480)], 1000⟩,
        ⟨[MovementTap.handWithTipY (100 / 480)], 1100⟩,
        ⟨[MovementTap.handWithTipY (150 / 480)], 1200⟩] : List MovementTap.MoveFrame).foldl
        (MovementTap.predictStep true) ⟨none, 0, []⟩).tapTimestamps = [1200]) := by
  constructor <;>
    norm_num [MovementTap.predictStep, MovementTap.handWithTipY,
      MovementTap.MOVEMENT_THRESHOLD_PIXELS, MovementTap.DEBOUNCE_TIME_MS,
      MovementTap.VIDEO_HEIGHT, List.foldl]

/-- **C8** (counterexample): calling Start while a session is Running is
not a no-op — `handleStartTest` has no guard and clears the accumulated
history, so a Running session with one accumulated sample does not map to
itself. -/
theorem C8_counterexample_start_while_running_not_noop :
    EyeTracking.handleStartTest
        ⟨true, [⟨0, ⟨0.5, 0.5⟩, some ⟨0.5, 0.5⟩⟩], none⟩
      ≠ ⟨true, [⟨0, ⟨0.5, 0.5⟩, some ⟨0.5, 0.5⟩⟩], none⟩ := by
  simp [EyeTracking.handleStartTest]

/-- **C8** (amended): calling Start — in any state, including while a
session is already Running — performs a full reset: the state is Running
afterwards, but the accumulated history and the results are cleared (the
UI prevents a second Start only by disabling the Start button while the
test runs). -/
theorem C8_start_is_full_reset (s : EyeTracking.EyeSession) :
    (EyeTracking.handleStartTest s).isTestRunning = true ∧
    (EyeTracking.handleStartTest s).gazeHistory = [] ∧
    (EyeTracking.handleStartTest s).testResults = none := by
  simp [EyeTracking.handleStartTest]

/-- **C9** (counterexample): the target position is not a function of the
elapsed time since session start — the code evaluates the path at the
absolute performance-clock time, so it is false that at session start
(elapsed `t = 0`) the target is `(0.5 + radius, 0.5)` for every possible
start instant: a session starting at clock time `3000·π` ms starts with
the target at `(0.5 − 0.4, 0.5)`. -/
theorem C9_counterexample_target_not_based_at_session_start :
    ¬ ∀ startMs : ℝ, EyeTracking.animateTarget startMs =
      ⟨0.5 + 0.4, 0.5⟩ := by
  intro h
  have hx := congrArg Point.x (h (3000 * Real.pi))
  have e : (3000 * Real.pi) / 3000 = Real.pi :=
    mul_div_cancel_left₀ Real.pi (by norm_num)
  rw [EyeTracking.animateTarget] at hx
  simp only [e, Real.cos_pi] at hx
  norm_num at hx

/-- **C9** (amended): the target position is a pure function of the
absolute performance-clock time `now` (milliseconds since page load), not
of the elapsed time since session start:
`x = 0.5 + 0.4·cos(now/3000)`, `y = 0.5 + 0.4·sin(now/3000)`; at clock
time 0 it is exactly `(0.5 + 0.4, 0.5)` and at clock time `3000·π` it is
exactly `(0.5 − 0.4, 0.5)`. -/
theorem C9_target_is_function_of_clock_time :
    (∀ now : ℝ, EyeTracking.animateTarget now =
      ⟨0.5 + 0.4 * Real.cos (now / 3000), 0.5 + 0.4 * Real.sin (now / 3000)⟩) ∧
    EyeTracking.animateTarget 0 = ⟨0.5 + 0.4, 0.5⟩ ∧
    EyeTracking.animateTarget (3000 * Real.pi) = ⟨0.5 - 0.4, 0.5⟩ := by
  have e : (3000 * Real.pi) / 3000 = Real.pi :=
    mul_div_cancel_left₀ Real.pi (by norm_num)
  refine ⟨fun now => rfl, ?_, ?_⟩
  · rw [EyeTracking.animateTarget]
    ext <;> norm_num
  · rw [EyeTracking.animateTarget]
    ext <;> simp only [e, Real.cos_pi, Real.sin_pi] <;> norm_num

/-- **C4**: for every landmark list, each eye's center is the arithmetic
mean of the x and y coordinates of its fixed five-index iris group, and
is `null` exactly when some required index is absent from the list; the
`average` field is the midpoint of the two centers when both exist and
`null` otherwise; any list missing either iris group entirely (all group
indices out of range, which forces `length ≤ 473`) has a `null` average.
`calculateGazePosition` is a total function of the landmark list — absent
landmarks yield `null` rather than an error. -/
theorem C4_gaze_estimator (landmarks : List Point) :
    (calculateGazePosition landmarks).left = specIrisCenter landmarks LEFT_IRIS_INDICES ∧
    (calculateGazePosition landmarks).right = specIrisCenter landmarks RIGHT_IRIS_INDICES ∧
    ((calculateGazePosition landmarks).left = none ↔
      ∃ i ∈ LEFT_IRIS_INDICES, landmarks.length ≤ i) ∧
    ((calculateGazePosition landmarks).right = none ↔
      ∃ i ∈ RIGHT_IRIS_INDICES, landmarks.length ≤ i) ∧
    ((calculateGazePosition landmarks).average =
      match (calculateGazePosition landmarks).left, (calculateGazePosition landmarks).right with
      | some l, some r => some ⟨(l.x + r.x) / 2, (l.y + r.y) / 2⟩
      | _, _ => none) ∧
    (landmarks.length ≤ 473 → (calculateGazePosition landmarks).average = none) := by
  have hleft : (calculateGazePosition landmarks).left =
      getCenterPoint landmarks LEFT_IRIS_INDICES := rfl
  have hright : (calculateGazePosition landmarks).right =
      getCenterPoint landmarks RIGHT_IRIS_INDICES := rfl
  have hnone : ∀ indices : List ℕ,
      (getCenterPoint landmarks indices = none ↔
        ∃ i ∈ indices, landmarks.length ≤ i) := by
    intro indices
    rw [getCenterPoint, ← mapM_get?_eq_none landmarks indices]
    cases indices.mapM (fun i => landmarks.get? i) <;> simp
  refine ⟨hleft.trans (getCenterPoint_eq_spec landmarks LEFT_IRIS_INDICES),
    hright.trans (getCenterPoint_eq_spec landmarks RIGHT_IRIS_INDICES),
    hleft ▸ hnone LEFT_IRIS_INDICES, hright ▸ hnone RIGHT_IRIS_INDICES, ?_, ?_⟩
  · rw [calculateGazePosition]
  · intro hlen
    have h473 : getCenterPoint landmarks LEFT_IRIS_INDICES = none := by
      rw [hnone LEFT_IRIS_INDICES]
      exact ⟨473, by simp [LEFT_IRIS_INDICES], hlen⟩
    rw [calculateGazePosition, h473]

/-- **C4** (witness): the empty landmark list is missing both iris groups,
and its gaze average is `null`. -/
theorem C4_gaze_estimator_witness :
    ([] : List Point).length ≤ 473 ∧ (calculateGazePosition []).average = none :=
  ⟨by norm_num, (C4_gaze_estimator []).2.2.2.2.2 (by norm_num)⟩

/-- One sampling step only ever appends a sample whose gaze is non-null. -/
theorem eyePredictStep_gaze_isSome (running : Bool) (h : List EyeTracking.GazeDataPoint)
    (f : EyeTracking.EyeFrame) (hh : ∀ s ∈ h, s.gaze.isSome) :
    ∀ s ∈ EyeTracking.predictStep running h f, s.gaze.isSome := by
  intro s hs
  rw [EyeTracking.predictStep] at hs
  rcases hE : f.faceLandmarks.head? with _ | lms
  · rw [hE] at hs; exact hh s hs
  · rw [hE] at hs
    dsimp only at hs
    rcases hA : (calculateGazePosition lms).average with _ | avg
    · rw [hA] at hs; exact hh s hs
    · rw [hA] at hs
      rcases running with _ | _
      · simp only [Bool.false_eq_true, if_false] at hs
        exact hh s hs
      · simp only [if_true, List.mem_append, List.mem_singleton] at hs
        rcases hs with hs | rfl
        · exact hh s hs
        · rfl

/-- Folding the sampling step over any frame sequence preserves the
invariant that every accumulated sample has a non-null gaze. -/
theorem eyeFold_gaze_isSome (running : Bool) (frames : List EyeTracking.EyeFrame)
    (h0 : List EyeTracking.GazeDataPoint) (hh : ∀ s ∈ h0, s.gaze.isSome) :
    ∀ s ∈ frames.foldl (EyeTracking.predictStep running) h0, s.gaze.isSome := by
  induction frames generalizing h0 with
  | nil => exact hh
  | cons f fs ih => exact ih _ (eyePredictStep_gaze_isSome running h0 f hh)

/-- The `forEach` accumulation of `handleStopTest` computes the summed
target–gaze distance and the count of the non-null-gaze samples. -/
theorem stopFold_spec (h : List EyeTracking.GazeDataPoint) (a : ℝ) (n : ℕ) :
    h.foldl
      (fun (acc : ℝ × ℕ) point =>
        match point.gaze with
        | some g =>
          (acc.1 + jsHypot (point.target.x - g.x) (point.target.y - g.y), acc.2 + 1)
        | none => acc)
      (a, n) =
    (a + EyeTracking.specTotalDistance h, n + EyeTracking.specValidCount h) := by
  induction h generalizing a n with
  | nil => simp [EyeTracking.specTotalDistance, EyeTracking.specValidCount]
  | cons p t ih =>
    rw [List.foldl_cons]
    rcases hg : p.gaze with _ | g
    · simp only [hg]
      rw [ih]
      have hTD : EyeTracking.specTotalDistance (p :: t) = EyeTracking.specTotalDistance t := by
        simp [EyeTracking.specTotalDistance, hg]
      have hVC : EyeTracking.specValidCount (p :: t) = EyeTracking.specValidCount t := by
        simp [EyeTracking.specValidCount, hg]
      rw [hTD, hVC]
    · simp only [hg]
      rw [ih]
      have hTD : EyeTracking.specTotalDistance (p :: t)
          = jsHypot (p.target.x - g.x) (p.target.y - g.y) +
            EyeTracking.specTotalDistance t := by
        simp [EyeTracking.specTotalDistance, hg]
      have hVC : EyeTracking.specValidCount (p :: t)
          = EyeTracking.specValidCount t + 1 := by
        simp [EyeTracking.specValidCount, hg, List.filter_cons]
      rw [hTD, hVC]
      simp only [Prod.mk.injEq]
      constructor
      · ring
      · omega

/-- Under the sampling-loop invariant (every stored sample has a non-null
gaze) the valid-sample count is the whole history length. -/
theorem specValidCount_eq_length (h : List EyeTracking.GazeDataPoint)
    (hinv : ∀ s ∈ h, s.gaze.isSome) :
    EyeTracking.specValidCount h = h.length := by
  unfold EyeTracking.specValidCount
  rw [List.filter_eq_self.mpr (fun a ha => hinv a ha)]

/-- **C1**: stopping the eye-tracking session aggregates the history into
`averageError` = (sum of Euclidean target–gaze distances over the samples
with non-null gaze) / (count of those samples), and
`trackingScore = max(0, 100 − averageError·150)` (scale constant
`K = 150`, rounded to two decimals) with `pointsCollected` the valid
count; with zero valid samples the reported results are
`trackingScore = 0`, `pointsCollected = 0`.  The division is guarded by
the positive valid count, so the score is always a well-defined finite
value, never NaN.  The hypothesis is the sampling-loop invariant: the
loop only appends samples with non-null gaze. -/
theorem C1_score_aggregator (h : List EyeTracking.GazeDataPoint)
    (hinv : ∀ s ∈ h, s.gaze.isSome) :
    (EyeTracking.specValidCount h = 0 → EyeTracking.handleStopTest h = ⟨0, 0⟩) ∧
    (0 < EyeTracking.specValidCount h →
      EyeTracking.handleStopTest h =
        ⟨round2 (max 0 (100 - EyeTracking.specTotalDistance h /
            (EyeTracking.specValidCount h : ℝ) * 150)),
         EyeTracking.specValidCount h⟩) := by
  have hcount := specValidCount_eq_length h hinv
  constructor
  · intro h0
    have hnil : h = [] := by
      rw [hcount] at h0
      exact List.length_eq_zero.mp h0
    subst hnil
    simp [EyeTracking.handleStopTest]
  · intro hpos
    have hne : h.length > 0 := by rw [← hcount]; exact hpos
    simp only [EyeTracking.handleStopTest, stopFold_spec h 0 0, zero_add]
    rw [if_pos hne, if_pos hpos]

/-- **C1** (witness): a one-sample history whose gaze coincides with the
target satisfies the loop invariant, has one valid sample, and aggregates
by the stated formula. -/
theorem C1_score_aggregator_witness :
    0 < EyeTracking.specValidCount [⟨0, ⟨0.5, 0.5⟩, some ⟨0.5, 0.5⟩⟩] ∧
    EyeTracking.handleStopTest [⟨0, ⟨0.5, 0.5⟩, some ⟨0.5, 0.5⟩⟩] =
      ⟨round2 (max 0 (100 -
          EyeTracking.specTotalDistance [⟨0, ⟨0.5, 0.5⟩, some ⟨0.5, 0.5⟩⟩] /
          (EyeTracking.specValidCount [⟨0, ⟨0.5, 0.5⟩, some ⟨0.5, 0.5⟩⟩] : ℝ) * 150)),
       EyeTracking.specValidCount [⟨0, ⟨0.5, 0.5⟩, some ⟨0.5, 0.5⟩⟩]⟩ := by
  have hpos : 0 < EyeTracking.specValidCount [⟨0, ⟨0.5, 0.5⟩, some ⟨0.5, 0.5⟩⟩] := by
    simp [EyeTracking.specValidCount]
  exact ⟨hpos,
    (C1_score_aggregator [⟨0, ⟨0.5, 0.5⟩, some ⟨0.5, 0.5⟩⟩] (by simp)).2 hpos⟩

/-- **C10**: every sample the sampling loop appends to the eye-tracking
history has a non-null gaze (frames without a detected face or without a
computable gaze average are skipped entirely), so at Stop the reported
`pointsCollected` equals the full history length. -/
theorem C10_history_all_valid (frames : List EyeTracking.EyeFrame) (running : Bool) :
    (∀ s ∈ frames.foldl (EyeTracking.predictStep running) [], s.gaze.isSome) ∧
    (EyeTracking.handleStopTest
        (frames.foldl (EyeTracking.predictStep running) [])).pointsCollected =
      (frames.foldl (EyeTracking.predictStep running) []).length := by
  have hall := eyeFold_gaze_isSome running frames [] (by intro s hs; cases hs)
  refine ⟨hall, ?_⟩
  have hcount := specValidCount_eq_length _ hall
  by_cases hne : (frames.foldl (EyeTracking.predictStep running) []).length > 0
  · simp only [EyeTracking.handleStopTest, stopFold_spec _ 0 0, zero_add]
    rw [if_pos hne]
    exact hcount
  · have hlen0 : (frames.foldl (EyeTracking.predictStep running) []).length = 0 := by
      omega
    rw [List.length_eq_zero.mp hlen0]
    simp [EyeTracking.handleStopTest]

/-- Once `wasTapped` is set, the proximity detector's state is left
entirely unchanged by any run of frames whose distance stays below the
threshold (the below-threshold branch never resets the flag and never
appends while the flag is set). -/
theorem fingerTap_saturated (frames : List FingerTap.HandFrame) (s : FingerTap.TapState)
    (hs : s.wasTapped = true)
    (hall : ∀ f ∈ frames, ∃ hand d, f.landmarks.head? = some hand ∧
      calculateFingerTapDistance hand = some d ∧ d < FingerTap.TAP_THRESHOLD) :
    frames.foldl (FingerTap.predictStep true) s = s := by
  induction frames with
  | nil => rfl
  | cons f fs ih =>
    rcases hall f (List.mem_cons_self f fs) with ⟨hand, d, hh, hd, hlt⟩
    have hstep : FingerTap.predictStep true s f = s := by
      simp [FingerTap.predictStep, hh, hd, hlt, hs]
    rw [List.foldl_cons, hstep]
    exact ih (fun g hg => hall g (List.mem_cons_of_mem f hg))

/-- **C5**: while the session is Running, the proximity strategy appends
a tap exactly on frames whose thumb–index distance is below the threshold
with `wasTapped` false immediately prior; frames with no hand, with a
null distance, with the distance at or above the threshold, or with
`wasTapped` already set leave the recorded taps unchanged; and any run of
consecutive below-threshold frames appends at most one tap in total. -/
theorem C5_proximity_edge_triggered :
    (∀ (s : FingerTap.TapState) (f : FingerTap.HandFrame),
      f.landmarks.head? = none → FingerTap.predictStep true s f = s) ∧
    (∀ (s : FingerTap.TapState) (f : FingerTap.HandFrame) (hand : List Point),
      f.landmarks.head? = some hand → calculateFingerTapDistance hand = none →
      FingerTap.predictStep true s f = s) ∧
    (∀ (s : FingerTap.TapState) (f : FingerTap.HandFrame) (hand : List Point) (d : ℝ),
      f.landmarks.head? = some hand → calculateFingerTapDistance hand = some d →
      ¬ d < FingerTap.TAP_THRESHOLD →
      (FingerTap.predictStep true s f).tapTimestamps = s.tapTimestamps) ∧
    (∀ (s : FingerTap.TapState) (f : FingerTap.HandFrame) (hand : List Point) (d : ℝ),
      f.landmarks.head? = some hand → calculateFingerTapDistance hand = some d →
      d < FingerTap.TAP_THRESHOLD → s.wasTapped = true →
      FingerTap.predictStep true s f = s) ∧
    (∀ (s : FingerTap.TapState) (f : FingerTap.HandFrame) (hand : List Point) (d : ℝ),
      f.landmarks.head? = some hand → calculateFingerTapDistance hand = some d →
      d < FingerTap.TAP_THRESHOLD → s.wasTapped = false →
      FingerTap.predictStep true s f = ⟨true, s.tapTimestamps ++ [f.now]⟩) ∧
    (∀ (frames : List FingerTap.HandFrame) (s : FingerTap.TapState),
      (∀ f ∈ frames, ∃ hand d, f.landmarks.head? = some hand ∧
        calculateFingerTapDistance hand = some d ∧ d < FingerTap.TAP_THRESHOLD) →
      (frames.foldl (FingerTap.predictStep true) s).tapTimestamps.length ≤
        s.tapTimestamps.length + 1) := by
  refine ⟨?_, ?_, ?_, ?_, ?_, ?_⟩
  · intro s f hh
    simp [FingerTap.predictStep, hh]
  · intro s f hand hh hd
    simp [FingerTap.predictStep, hh, hd]
  · intro s f hand d hh hd hge
    simp [FingerTap.predictStep, hh, hd, hge]
  · intro s f hand d hh hd hlt hw
    simp [FingerTap.predictStep, hh, hd, hlt, hw]
  · intro s f hand d hh hd hlt hw
    simp [FingerTap.predictStep, hh, hd, hlt, hw]
  · intro frames s hall
    rcases hw : s.wasTapped with _ | _
    · cases frames with
      | nil => simp
      | cons f fs =>
        rcases hall f (List.mem_cons_self f fs) with ⟨hand, d, hh, hd, hlt⟩
        have hstep : FingerTap.predictStep true s f =
            ⟨true, s.tapTimestamps ++ [f.now]⟩ := by
          simp [FingerTap.predictStep, hh, hd, hlt, hw]
        rw [List.foldl_cons, hstep,
          fingerTap_saturated fs ⟨true, s.tapTimestamps ++ [f.now]⟩ rfl
            (fun g hg => hall g (List.mem_cons_of_mem f hg))]
        simp
    · rw [fingerTap_saturated frames s hw hall]
      omega

/-- **C5** (witness): concrete single frames — no hand, a too-short hand
(null distance), an open hand (distance 1 ≥ threshold), a closed hand
(distance 0 < threshold) against a set and an unset flag — and a
two-frame closed-hand run that appends exactly one tap. -/
theorem C5_proximity_edge_triggered_witness :
    FingerTap.predictStep true ⟨false, []⟩ ⟨[], 0⟩ = ⟨false, []⟩ ∧
    FingerTap.predictStep true ⟨false, []⟩ ⟨[[⟨0, 0⟩]], 1⟩ = ⟨false, []⟩ ∧
    (FingerTap.predictStep true ⟨false, []⟩
      ⟨[FingerTap.openHand], 2⟩).tapTimestamps = ([] : List ℝ) ∧
    FingerTap.predictStep true ⟨true, []⟩ ⟨[FingerTap.closedHand], 3⟩ = ⟨true, []⟩ ∧
    FingerTap.predictStep true ⟨false, []⟩ ⟨[FingerTap.closedHand], 4⟩ = ⟨true, [4]⟩ ∧
    (([⟨[FingerTap.closedHand], 5⟩, ⟨[FingerTap.closedHand], 6⟩] :
        List FingerTap.HandFrame).foldl
      (FingerTap.predictStep true) ⟨false, []⟩).tapTimestamps.length ≤
      ([] : List ℝ).length + 1 := by
  have hclosed : calculateFingerTapDistance FingerTap.closedHand =
      some (jsHypot (0 - 0) (0 - 0)) := rfl
  have hopen : calculateFingerTapDistance FingerTap.openHand =
      some (jsHypot (0 - 1) (0 - 0)) := rfl
  have hlt : jsHypot (0 - 0) (0 - 0) < FingerTap.TAP_THRESHOLD := by
    simp [jsHypot, FingerTap.TAP_THRESHOLD]
    norm_num
  have hge : ¬ jsHypot (0 - 1) (0 - 0) < FingerTap.TAP_THRESHOLD := by
    simp [jsHypot, FingerTap.TAP_THRESHOLD]
    norm_num
  refine ⟨C5_proximity_edge_triggered.1 ⟨false, []⟩ ⟨[], 0⟩ rfl,
    C5_proximity_edge_triggered.2.1 ⟨false, []⟩ ⟨[[⟨0, 0⟩]], 1⟩ [⟨0, 0⟩] rfl rfl,
    C5_proximity_edge_triggered.2.2.1 ⟨false, []⟩ ⟨[FingerTap.openHand], 2⟩
      FingerTap.openHand (jsHypot (0 - 1) (0 - 0)) rfl hopen hge,
    C5_proximity_edge_triggered.2.2.2.1 ⟨true, []⟩ ⟨[FingerTap.closedHand], 3⟩
      FingerTap.closedHand (jsHypot (0 - 0) (0 - 0)) rfl hclosed hlt rfl,
    C5_proximity_edge_triggered.2.2.2.2.1 ⟨false, []⟩ ⟨[FingerTap.closedHand], 4⟩
      FingerTap.closedHand (jsHypot (0 - 0) (0 - 0)) rfl hclosed hlt rfl,
    C5_proximity_edge_triggered.2.2.2.2.2
      [⟨[FingerTap.closedHand], 5⟩, ⟨[FingerTap.closedHand], 6⟩] ⟨false, []⟩ ?_⟩
  intro f hf
  rcases List.mem_cons.mp hf with rfl | hf2
  · exact ⟨FingerTap.closedHand, jsHypot (0 - 0) (0 - 0), rfl, hclosed, hlt⟩
  · rcases List.mem_singleton.mp hf2 with rfl
    exact ⟨FingerTap.closedHand, jsHypot (0 - 0) (0 - 0), rfl, hclosed, hlt⟩

/-- One movement-detector step either leaves the recorded taps and the
last-tap time unchanged, or appends the frame's time with the debounce
condition satisfied against the previous last-tap time. -/
theorem moveStep_cases (s : MovementTap.MoveState) (f : MovementTap.MoveFrame) :
    ((MovementTap.predictStep true s f).tapTimestamps = s.tapTimestamps ∧
     (MovementTap.predictStep true s f).lastTapTime = s.lastTapTime) ∨
    ((MovementTap.predictStep true s f).tapTimestamps = s.tapTimestamps ++ [f.now] ∧
     (MovementTap.predictStep true s f).lastTapTime = f.now ∧
     f.now - s.lastTapTime > MovementTap.DEBOUNCE_TIME_MS) := by
  rw [MovementTap.predictStep]
  rw [if_pos rfl]
  rcases hH : f.landmarks.head? with _ | hand
  · exact Or.inl ⟨rfl, rfl⟩
  · dsimp only
    rcases hT : hand.get? 8 with _ | tip
    · exact Or.inl ⟨rfl, rfl⟩
    · dsimp only
      rcases hY : s.lastFingerTipY with _ | lastY
      · exact Or.inl ⟨rfl, rfl⟩
      · dsimp only
        by_cases hm : |tip.y * MovementTap.VIDEO_HEIGHT - lastY| >
            MovementTap.MOVEMENT_THRESHOLD_PIXELS
        · rw [if_pos hm]
          by_cases hdb : f.now - s.lastTapTime > MovementTap.DEBOUNCE_TIME_MS
          · rw [if_pos hdb]
            exact Or.inr ⟨rfl, rfl, hdb⟩
          · rw [if_neg hdb]
            exact Or.inl ⟨rfl, rfl⟩
        · rw [if_neg hm]
          exact Or.inl ⟨rfl, rfl⟩

/-- Folding the movement-detector step preserves the debounce invariant:
the recorded taps form a strictly increasing chain with gaps of more than
the debounce interval, and the last recorded tap is no later than the
remembered last-tap time. -/
theorem moveFold_inv (frames : List MovementTap.MoveFrame) (s : MovementTap.MoveState)
    (hc : List.Chain' (fun a b => a < b ∧ a + MovementTap.DEBOUNCE_TIME_MS ≤ b)
      s.tapTimestamps)
    (hl : ∀ a ∈ s.tapTimestamps.getLast?, a ≤ s.lastTapTime) :
    List.Chain' (fun a b => a < b ∧ a + MovementTap.DEBOUNCE_TIME_MS ≤ b)
      ((frames.foldl (MovementTap.predictStep true) s).tapTimestamps) ∧
    ∀ a ∈ ((frames.foldl (MovementTap.predictStep true) s).tapTimestamps).getLast?,
      a ≤ (frames.foldl (MovementTap.predictStep true) s).lastTapTime := by
  induction frames generalizing s with
  | nil => exact ⟨hc, hl⟩
  | cons f fs ih =>
    rw [List.foldl_cons]
    apply ih
    · rcases moveStep_cases s f with ⟨ht, _⟩ | ⟨ht, _, hdb⟩
      · rw [ht]; exact hc
      · rw [ht, List.chain'_append]
        refine ⟨hc, List.chain'_singleton f.now, ?_⟩
        intro a ha y hy
        rw [List.head?_cons] at hy
        cases hy
        have hle := hl a ha
        have hpos : (0 : ℝ) < MovementTap.DEBOUNCE_TIME_MS := by
          rw [MovementTap.DEBOUNCE_TIME_MS]; norm_num
        constructor
        · linarith
        · linarith
    · rcases moveStep_cases s f with ⟨ht, htt⟩ | ⟨ht, htt, hdb⟩
      · rw [ht, htt]; exact hl
      · rw [ht, htt, List.getLast?_concat]
        intro a ha
        cases ha
        exact le_refl f.now

/-- **C7**: over every frame sequence of a session (taps starting empty,
any stale `lastTapTime` and remembered tip position), the recorded tap
timestamps are strictly increasing, and consecutive taps are separated by
at least the debounce interval (the code in fact enforces a strict gap
greater than `DEBOUNCE_TIME_MS`). -/
theorem C7_taps_strictly_increasing_debounced
    (frames : List MovementTap.MoveFrame) (y0 : Option ℝ) (t0 : ℝ) :
    List.Chain' (fun a b => a < b ∧ a + MovementTap.DEBOUNCE_TIME_MS ≤ b)
      ((frames.foldl (MovementTap.predictStep true) ⟨y0, t0, []⟩).tapTimestamps) :=
  (moveFold_inv frames ⟨y0, t0, []⟩ List.chain'_nil (by simp)).1

/-- `analyzeTapData` on a sequence of at least two timestamps: the field
values in terms of the first and last timestamps and the spec-side
interval statistics, with the duration division still in IEEE form. -/
theorem analyzeTapData_spec (ts : List ℝ) (a b : ℝ)
    (ha : ts.head? = some a) (hb : ts.getLast? = some b) (h2 : 2 ≤ ts.length) :
    analyzeTapData ts =
      ⟨ts.length, (jsDiv (ts.length : ℝ) ((b - a) / 1000)).toFixed2,
       round2 (specMean (tapIntervals ts)),
       round2 (specPopStdDev (tapIntervals ts))⟩ := by
  rw [analyzeTapData, dif_neg (by omega : ¬ ts.length < 2)]
  dsimp only
  have hget0 : ∀ p : 0 < ts.length, ts.get ⟨0, p⟩ = a := by
    intro p
    cases ts with
    | nil => simp at ha
    | cons x t =>
      simp only [List.head?_cons, Option.some.injEq] at ha
      simp [ha]
  have hgetl : ∀ p : ts.length - 1 < ts.length, ts.get ⟨ts.length - 1, p⟩ = b := by
    intro p
    rw [List.getLast?_eq_getElem?, List.getElem?_eq_getElem p] at hb
    have hbb := Option.some.inj hb
    rw [← hbb]
    simp [List.get_eq_getElem]
  rw [hget0, hgetl]
  simp only [foldlAdd, zero_add]
  rw [specPopStdDev, specMean]

/-- **C2**: for every timestamp sequence of length ≥ 2 (with distinct
first and last timestamps, so the duration division is defined),
`analyzeTapData` returns `totalTaps` = length, `tapsPerSecond` =
totalTaps / ((last − first)/1000), `averageTimeBetweenTaps` = the
arithmetic mean of the consecutive inter-tap intervals, and `consistency`
= the population standard deviation of those intervals, the last three
rounded to two decimals; on `[0, 400, 1100]` it returns mean 550,
consistency 150 and tapsPerSecond 2.73; and for sequences shorter than 2
it returns the length with all three statistics 0. -/
theorem C2_tap_statistics (ts : List ℝ) (a b : ℝ) :
    (ts.head? = some a → ts.getLast? = some b → 2 ≤ ts.length → a ≠ b →
      analyzeTapData ts =
        ⟨ts.length,
         JSNum.num (round2 ((ts.length : ℝ) / ((b - a) / 1000))),
         round2 (specMean (tapIntervals ts)),
         round2 (specPopStdDev (tapIntervals ts))⟩) ∧
    (ts.length < 2 → analyzeTapData ts = ⟨ts.length, JSNum.num 0, 0, 0⟩) ∧
    analyzeTapData [0, 400, 1100] = ⟨3, JSNum.num 2.73, 550, 150⟩ := by
  refine ⟨?_, ?_, ?_⟩
  · intro ha hb h2 hne
    rw [analyzeTapData_spec ts a b ha hb h2]
    have hdne : ¬ ((b - a) / 1000 = 0) := by
      intro hz
      rcases div_eq_zero_iff.mp hz with h0 | h0
      · exact hne (by linarith)
      · norm_num at h0
    rw [jsDiv, if_neg hdne]
    rfl
  · intro hlt
    rw [analyzeTapData, dif_pos hlt]
  · have h := analyzeTapData_spec [0, 400, 1100] 0 1100 rfl rfl (by norm_num)
    rw [h]
    have hint : tapIntervals [0, 400, 1100] = [400, 700] := by
      simp [tapIntervals]
      norm_num
    rw [hint]
    have hsqrt : specPopStdDev [400, 700] = 150 := by
      rw [specPopStdDev, specMean]
      norm_num
      rw [show (22500 : ℝ) = 150 ^ 2 by norm_num]
      exact Real.sqrt_sq (by norm_num)
    have hmean : specMean [400, 700] = 550 := by
      rw [specMean]; norm_num
    rw [hsqrt, hmean]
    rw [jsDiv, if_neg (by norm_num : ¬ ((1100 : ℝ) - 0) / 1000 = 0)]
    rw [JSNum.toFixed2]
    congr 1
    · congr 1
      rw [round2]
      norm_num
    · rw [round2]; norm_num
    · rw [round2]; norm_num

/-- **C2** (witness): the theorem's long-sequence branch applied at
`[0, 400, 1100]` with all hypotheses discharged, and its short-sequence
branch applied at the empty sequence. -/
theorem C2_tap_statistics_witness :
    (([0, 400, 1100] : List ℝ).head? = some 0 ∧
     ([0, 400, 1100] : List ℝ).getLast? = some 1100 ∧
     2 ≤ ([0, 400, 1100] : List ℝ).length ∧ (0 : ℝ) ≠ 1100 ∧
     analyzeTapData [0, 400, 1100] =
       ⟨([0, 400, 1100] : List ℝ).length,
        JSNum.num (round2 ((([0, 400, 1100] : List ℝ).length : ℝ) / ((1100 - 0) / 1000))),
        round2 (specMean (tapIntervals [0, 400, 1100])),
        round2 (specPopStdDev (tapIntervals [0, 400, 1100]))⟩) ∧
    (([] : List ℝ).length < 2 ∧
     analyzeTapData ([] : List ℝ) = ⟨([] : List ℝ).length, JSNum.num 0, 0, 0⟩) :=
  ⟨⟨rfl, rfl, by norm_num, by norm_num,
     (C2_tap_statistics [0, 400, 1100] 0 1100).1 rfl rfl (by norm_num) (by norm_num)⟩,
   ⟨by norm_num, (C2_tap_statistics [] 0 0).2.1 (by norm_num)⟩⟩
